import Mathlib

/-!
Verification of the audio streaming / session protocol engine of the
stark-voice-agent client (`static/script.js`).

Shallow embedding conventions:
* JS `number` values flowing through the audio math (Float32 samples,
  sample rates) are modelled as `ℚ`; the multiplications performed by the
  PCM16 encoder (by `0x8000` / `0x7FFF` on a Float32-sourced double) are
  exact in IEEE double precision, so the rational model is faithful.
* Byte buffers (`Uint8Array` / `ArrayBuffer`) are `List Nat`, each entry a
  byte value; `DataView.setUint8/16/32` little-endian writes are modelled
  by `List.set` with the value reduced mod 256 per byte, exactly as the
  JS `DataView` stores them.
* The DOM / WebSocket side effects are modelled as an explicit client
  state record; each message handler is a function from state (plus the
  message) to state together with the buffer handed to the audio decoder,
  if any.
-/

namespace Stark

/-- One byte store of `DataView.setUint8` (value wraps mod 256). -/
def setUint8 (view : List Nat) (offset v : Nat) : List Nat :=
  view.set offset (v % 256)

/-- Little-endian `DataView.setUint16(offset, v, true)`. -/
def setUint16 (view : List Nat) (offset v : Nat) : List Nat :=
  setUint8 (setUint8 view offset v) (offset + 1) (v / 256)

/-- Little-endian `DataView.setUint32(offset, v, true)`. -/
def setUint32 (view : List Nat) (offset v : Nat) : List Nat :=
  setUint8 (setUint8 (setUint8 (setUint8 view offset v)
    (offset + 1) (v / 256)) (offset + 2) (v / 65536)) (offset + 3) (v / 16777216)

/-- `AudioPlayer.writeString`: writes the char codes of a string at
consecutive offsets via `setUint8`. -/
def writeString (view : List Nat) (offset : Nat) : List Char → List Nat
  | [] => view
  | c :: cs => writeString (setUint8 view offset c.toNat) (offset + 1) cs

/-- `AudioPlayer.createWavBuffer(pcmData)`: allocates a zeroed buffer of
44 + dataSize bytes, writes the RIFF/WAVE header fields at their offsets,
then overwrites the bytes from offset 44 with the PCM payload
(`new Uint8Array(buffer, 44).set(pcmData)`). -/
def createWavBuffer (pcmData : List Nat) : List Nat :=
  let sampleRate := 44100
  let numChannels := 1
  let bytesPerSample := 2
  let blockAlign := numChannels * bytesPerSample
  let byteRate := sampleRate * blockAlign
  let dataSize := pcmData.length
  let buffer := List.replicate (44 + dataSize) 0
  let b1 := writeString buffer 0 "RIFF".data
  let b2 := setUint32 b1 4 (36 + dataSize)
  let b3 := writeString b2 8 "WAVE".data
  let b4 := writeString b3 12 "fmt ".data
  let b5 := setUint32 b4 16 16
  let b6 := setUint16 b5 20 1
  let b7 := setUint16 b6 22 numChannels
  let b8 := setUint32 b7 24 sampleRate
  let b9 := setUint32 b8 28 byteRate
  let b10 := setUint16 b9 32 blockAlign
  let b11 := setUint16 b10 34 (bytesPerSample * 8)
  let b12 := writeString b11 36 "data".data
  let b13 := setUint32 b12 40 dataSize
  b13.take 44 ++ pcmData

/-- The 44 header bytes `createWavBuffer` produces for a payload of
length `n`, as an explicit byte list. -/
def wavHeader (n : Nat) : List Nat :=
  [82, 73, 70, 70,
   (36 + n) % 256, (36 + n) / 256 % 256, (36 + n) / 65536 % 256, (36 + n) / 16777216 % 256,
   87, 65, 86, 69,
   102, 109, 116, 32,
   16, 0, 0, 0,
   1, 0,
   1, 0,
   68, 172, 0, 0,
   136, 88, 1, 0,
   2, 0,
   16, 0,
   100, 97, 116, 97,
   n % 256, n / 256 % 256, n / 65536 % 256, n / 16777216 % 256]

set_option maxHeartbeats 2000000 in
theorem createWavBuffer_eq (pcmData : List Nat) :
    createWavBuffer pcmData = wavHeader pcmData.length ++ pcmData := by
  have hR : "RIFF".data = ['R', 'I', 'F', 'F'] := rfl
  have hW : "WAVE".data = ['W', 'A', 'V', 'E'] := rfl
  have hF : "fmt ".data = ['f', 'm', 't', ' '] := rfl
  have hD : "data".data = ['d', 'a', 't', 'a'] := rfl
  simp only [createWavBuffer, wavHeader, hR, hW, hF, hD]
  simp only [writeString]
  simp only [setUint32, setUint16, setUint8]
  simp only [List.set_take, List.take_replicate]
  have hmin : min 44 (44 + pcmData.length) = 44 := by omega
  rw [hmin]
  have hrep : List.replicate 44 (0 : Nat) =
      [0, 0, 0, 0, 0, 0, 0, 0, 0, 0, 0, 0, 0, 0, 0, 0, 0, 0, 0, 0, 0, 0,
       0, 0, 0, 0, 0, 0, 0, 0, 0, 0, 0, 0, 0, 0, 0, 0, 0, 0, 0, 0, 0, 0] := rfl
  have cR : ('R').toNat = 82 := rfl
  have cI : ('I').toNat = 73 := rfl
  have cF : ('F').toNat = 70 := rfl
  have cW : ('W').toNat = 87 := rfl
  have cA : ('A').toNat = 65 := rfl
  have cV : ('V').toNat = 86 := rfl
  have cE : ('E').toNat = 69 := rfl
  have cf : ('f').toNat = 102 := rfl
  have cm : ('m').toNat = 109 := rfl
  have ct : ('t').toNat = 116 := rfl
  have csp : (' ').toNat = 32 := rfl
  have cdd : ('d').toNat = 100 := rfl
  have caa : ('a').toNat = 97 := rfl
  rw [hrep]
  simp only [cR, cI, cF, cW, cA, cV, cE, cf, cm, ct, csp, cdd, caa]
  norm_num [List.set_cons_succ, List.set_cons_zero]

/-- C2: container builder correctness. For every PCM payload of length N,
`createWavBuffer` returns a buffer of total length 44+N whose 44 header
bytes are byte-exact (RIFF chunk, little-endian 36+N, WAVE, fmt chunk of
size 16, PCM tag 1, mono, 44100 Hz, byte rate 88200, block align 2,
16 bits per sample, data chunk, little-endian N), followed by the payload
unchanged; for N = 0 the total length is 44 and the dataSize field is 0.
The multi-byte fields are the little-endian byte encodings of their
values (reduced mod 2^32 exactly as `DataView.setUint32` stores them). -/
theorem wav_container_builder_correct (pcmData : List Nat) :
    (createWavBuffer pcmData).length = 44 + pcmData.length ∧
    (createWavBuffer pcmData).take 4 = [82, 73, 70, 70] ∧
    ((createWavBuffer pcmData).drop 4).take 4 =
      [(36 + pcmData.length) % 256, (36 + pcmData.length) / 256 % 256,
       (36 + pcmData.length) / 65536 % 256, (36 + pcmData.length) / 16777216 % 256] ∧
    ((createWavBuffer pcmData).drop 8).take 4 = [87, 65, 86, 69] ∧
    ((createWavBuffer pcmData).drop 12).take 4 = [102, 109, 116, 32] ∧
    ((createWavBuffer pcmData).drop 16).take 4 = [16, 0, 0, 0] ∧
    ((createWavBuffer pcmData).drop 20).take 2 = [1, 0] ∧
    ((createWavBuffer pcmData).drop 22).take 2 = [1, 0] ∧
    ((createWavBuffer pcmData).drop 24).take 4 = [68, 172, 0, 0] ∧
    ((createWavBuffer pcmData).drop 28).take 4 = [136, 88, 1, 0] ∧
    ((createWavBuffer pcmData).drop 32).take 2 = [2, 0] ∧
    ((createWavBuffer pcmData).drop 34).take 2 = [16, 0] ∧
    ((createWavBuffer pcmData).drop 36).take 4 = [100, 97, 116, 97] ∧
    ((createWavBuffer pcmData).drop 40).take 4 =
      [pcmData.length % 256, pcmData.length / 256 % 256,
       pcmData.length / 65536 % 256, pcmData.length / 16777216 % 256] ∧
    (createWavBuffer pcmData).drop 44 = pcmData ∧
    (createWavBuffer []).length = 44 ∧
    ((createWavBuffer []).drop 40).take 4 = [0, 0, 0, 0] := by
  simp only [createWavBuffer_eq]
  refine ⟨?_, rfl, rfl, rfl, rfl, rfl, rfl, rfl, rfl, rfl, rfl, rfl, rfl, rfl, rfl, rfl, rfl⟩
  simp [wavHeader]
  omega

/-- JS `Math.round` for the nonnegative values that arise here:
round-half-up is floor of the value plus one half. -/
def jsRound (q : ℚ) : ℤ := ⌊q + 1 / 2⌋

/-- `resampleBuffer(inputBuffer, fromSampleRate, toSampleRate)`: identity
fast path when the rates are equal; otherwise linear interpolation at
each fractional source position, holding the last input sample when the
ceiling index runs past the end of the input. -/
def resampleBuffer (inputBuffer : List ℚ) (fromSampleRate toSampleRate : ℚ) : List ℚ :=
  if fromSampleRate = toSampleRate then inputBuffer
  else
    let sampleRateRatio := fromSampleRate / toSampleRate
    let newLength := (jsRound ((inputBuffer.length : ℚ) / sampleRateRatio)).toNat
    (List.range newLength).map fun (i : Nat) =>
      let index : ℚ := (i : ℚ) * sampleRateRatio
      let indexFloor : ℤ := ⌊index⌋
      let indexCeil : ℤ := ⌈index⌉
      if (inputBuffer.length : ℤ) ≤ indexCeil then
        inputBuffer.getD (inputBuffer.length - 1) 0
      else
        let weight := index - (indexFloor : ℚ)
        inputBuffer.getD indexFloor.toNat 0 * (1 - weight) +
          inputBuffer.getD indexCeil.toNat 0 * weight

/-- Truncation toward zero, as JS number-to-integer conversion does. -/
def jsTrunc (q : ℚ) : ℤ := if q < 0 then ⌈q⌉ else ⌊q⌋

/-- Storing a JS number into an `Int16Array` slot: truncate toward zero,
wrap mod 2^16, reinterpret as a signed 16-bit value. -/
def toInt16 (q : ℚ) : ℤ :=
  let t := jsTrunc q
  let m := t % 65536
  if m < 32768 then m else m - 65536

/-- `convertTo16BitPCM(input)`: clamp each sample to [-1, 1], scale by
0x8000 when negative and 0x7FFF otherwise, store as a 16-bit sample. -/
def convertTo16BitPCM (input : List ℚ) : List ℤ :=
  input.map fun x =>
    let s := max (-1) (min 1 x)
    toInt16 (if s < 0 then s * 0x8000 else s * 0x7FFF)

theorem getD_map_lt {α β : Type} (f : α → β) (l : List α) (i : Nat) (b : β) (d : α)
    (h : i < l.length) : (l.map f).getD i b = f (l.getD i d) := by
  simp only [List.getD_eq_getElem?_getD]
  rw [List.getElem?_eq_getElem (by simpa using h), List.getElem?_eq_getElem h]
  simp

theorem clamp_mem_Icc (x : ℚ) : -1 ≤ max (-1) (min 1 x) ∧ max (-1) (min 1 x) ≤ 1 :=
  ⟨le_max_left _ _, max_le (by norm_num) (min_le_left _ _)⟩

theorem jsTrunc_scaled_bounds (x : ℚ) :
    -32768 ≤ jsTrunc (if max (-1) (min 1 x) < 0 then max (-1) (min 1 x) * 0x8000
      else max (-1) (min 1 x) * 0x7FFF) ∧
    jsTrunc (if max (-1) (min 1 x) < 0 then max (-1) (min 1 x) * 0x8000
      else max (-1) (min 1 x) * 0x7FFF) ≤ 32767 := by
  obtain ⟨h1, h2⟩ := clamp_mem_Icc x
  by_cases hs : max (-1) (min 1 x) < 0
  · rw [if_pos hs]
    have hq0 : max (-1) (min 1 x) * 0x8000 < 0 :=
      mul_neg_of_neg_of_pos hs (by norm_num)
    have hql : (-32768 : ℚ) ≤ max (-1) (min 1 x) * 0x8000 := by nlinarith
    rw [jsTrunc, if_pos hq0]
    constructor
    · have hc : (-32768 : ℚ) ≤ (⌈max (-1) (min 1 x) * 0x8000⌉ : ℚ) :=
        le_trans hql (Int.le_ceil _)
      exact_mod_cast hc
    · have hc : ⌈max (-1) (min 1 x) * 0x8000⌉ ≤ 0 :=
        Int.ceil_le.mpr (by push_cast; linarith)
      omega
  · rw [if_neg hs]
    push_neg at hs
    have hq0 : (0 : ℚ) ≤ max (-1) (min 1 x) * 0x7FFF :=
      mul_nonneg hs (by norm_num)
    have hqu : max (-1) (min 1 x) * 0x7FFF ≤ 32767 := by nlinarith
    rw [jsTrunc, if_neg (not_lt.mpr hq0)]
    constructor
    · have hc : (0 : ℤ) ≤ ⌊max (-1) (min 1 x) * 0x7FFF⌋ := Int.floor_nonneg.mpr hq0
      omega
    · have hc : (⌊max (-1) (min 1 x) * 0x7FFF⌋ : ℚ) ≤ 32767 :=
        le_trans (Int.floor_le _) hqu
      exact_mod_cast hc

theorem toInt16_eq_jsTrunc {q : ℚ} (h1 : -32768 ≤ jsTrunc q) (h2 : jsTrunc q ≤ 32767) :
    toInt16 q = jsTrunc q := by
  simp only [toInt16]
  split <;> omega

/-- C3: PCM16 encoder correctness. The output has the input's length;
each output sample is the input sample clamped to [-1, 1], scaled by
32768 when negative and 32767 otherwise, truncated toward zero; all
outputs lie in [-32768, 32767]; and 1.0, -1.0, 0 map to 32767, -32768, 0
respectively. -/
theorem pcm16_encoder_correct (input : List ℚ) :
    (convertTo16BitPCM input).length = input.length ∧
    (∀ i, i < input.length →
      (convertTo16BitPCM input).getD i 0 =
        jsTrunc (if max (-1) (min 1 (input.getD i 0)) < 0
          then max (-1) (min 1 (input.getD i 0)) * 32768
          else max (-1) (min 1 (input.getD i 0)) * 32767)) ∧
    (∀ v ∈ convertTo16BitPCM input, -32768 ≤ v ∧ v ≤ 32767) ∧
    convertTo16BitPCM [1] = [32767] ∧
    convertTo16BitPCM [-1] = [-32768] ∧
    convertTo16BitPCM [0] = [0] := by
  refine ⟨by simp [convertTo16BitPCM], ?_, ?_, ?_, ?_, ?_⟩
  · intro i hi
    rw [convertTo16BitPCM, getD_map_lt _ _ _ _ 0 hi]
    exact toInt16_eq_jsTrunc (jsTrunc_scaled_bounds _).1 (jsTrunc_scaled_bounds _).2
  · intro v hv
    rw [convertTo16BitPCM, List.mem_map] at hv
    obtain ⟨x, _, hx⟩ := hv
    rw [← hx, toInt16_eq_jsTrunc (jsTrunc_scaled_bounds x).1 (jsTrunc_scaled_bounds x).2]
    exact jsTrunc_scaled_bounds x
  · show [toInt16 (if max (-1) (min 1 (1 : ℚ)) < 0 then _ else _)] = [32767]
    norm_num [toInt16, jsTrunc]
  · have hceil : ⌈(-32768 : ℚ)⌉ = -32768 := by
      rw [show (-32768 : ℚ) = ((-32768 : ℤ) : ℚ) by norm_num]
      exact Int.ceil_intCast _
    show [toInt16 (if max (-1) (min 1 (-1 : ℚ)) < 0 then _ else _)] = [-32768]
    norm_num [toInt16, jsTrunc, hceil]
  · show [toInt16 (if max (-1) (min 1 (0 : ℚ)) < 0 then _ else _)] = [0]
    norm_num [toInt16, jsTrunc]

/-- C9: resampler identity law. When the source sample rate equals the
target sample rate, `resampleBuffer` returns its input unchanged. -/
theorem resampler_identity_law (input : List ℚ) (rate : ℚ) :
    resampleBuffer input rate rate = input := by
  simp [resampleBuffer]

/-- C4: resampler correctness for differing rates. The output length is
round(inputLength / (sourceRate/targetRate)); each output sample i is
taken at fractional source position pos = i * sourceRate/targetRate,
holding the last input sample when ceil(pos) runs past the input bounds
and linearly interpolating between input[floor(pos)] and input[ceil(pos)]
otherwise; a zero-length input yields a zero-length output. -/
theorem resampler_interpolation_correct (input : List ℚ) (fromRate toRate : ℚ)
    (hne : fromRate ≠ toRate) (hf : 0 < fromRate) (ht : 0 < toRate) :
    (resampleBuffer input fromRate toRate).length =
      (jsRound ((input.length : ℚ) / (fromRate / toRate))).toNat ∧
    (∀ i, i < (resampleBuffer input fromRate toRate).length →
      (resampleBuffer input fromRate toRate).getD i 0 =
        if (input.length : ℤ) ≤ ⌈(i : ℚ) * (fromRate / toRate)⌉ then
          input.getD (input.length - 1) 0
        else
          input.getD (⌊(i : ℚ) * (fromRate / toRate)⌋).toNat 0 *
              (1 - ((i : ℚ) * (fromRate / toRate) - (⌊(i : ℚ) * (fromRate / toRate)⌋ : ℚ))) +
            input.getD (⌈(i : ℚ) * (fromRate / toRate)⌉).toNat 0 *
              ((i : ℚ) * (fromRate / toRate) - (⌊(i : ℚ) * (fromRate / toRate)⌋ : ℚ))) ∧
    (input = [] → resampleBuffer input fromRate toRate = []) := by
  have hunf : resampleBuffer input fromRate toRate =
      (List.range (jsRound ((input.length : ℚ) / (fromRate / toRate))).toNat).map
        (fun (i : Nat) =>
          if (input.length : ℤ) ≤ ⌈(i : ℚ) * (fromRate / toRate)⌉ then
            input.getD (input.length - 1) 0
          else
            input.getD (⌊(i : ℚ) * (fromRate / toRate)⌋).toNat 0 *
                (1 - ((i : ℚ) * (fromRate / toRate) - (⌊(i : ℚ) * (fromRate / toRate)⌋ : ℚ))) +
              input.getD (⌈(i : ℚ) * (fromRate / toRate)⌉).toNat 0 *
                ((i : ℚ) * (fromRate / toRate) - (⌊(i : ℚ) * (fromRate / toRate)⌋ : ℚ))) := by
    rw [resampleBuffer, if_neg hne]
  refine ⟨by rw [hunf]; simp, ?_, ?_⟩
  · intro i hi
    rw [hunf] at hi
    have hi2 : i < (List.range
        (jsRound ((input.length : ℚ) / (fromRate / toRate))).toNat).length := by
      simpa using hi
    rw [hunf, getD_map_lt _ _ _ _ 0 hi2]
    have hr : (List.range
        (jsRound ((input.length : ℚ) / (fromRate / toRate))).toNat).getD i 0 = i := by
      rw [List.getD_eq_getElem?_getD, List.getElem?_eq_getElem hi2]
      simp
    rw [hr]
  · intro hemp
    subst hemp
    rw [hunf]
    norm_num [jsRound]

/-- Witness for the resampler theorem at the concrete input [1, 3] with
source rate 2 and target rate 1. -/
theorem resampler_interpolation_correct_witness :
    ((2 : ℚ) ≠ 1) ∧ ((0 : ℚ) < 2) ∧ ((0 : ℚ) < 1) ∧
    (resampleBuffer [1, 3] 2 1).length =
      (jsRound ((([1, 3] : List ℚ).length : ℚ) / (2 / 1))).toNat :=
  ⟨by norm_num, by norm_num, by norm_num,
    (resampler_interpolation_correct [1, 3] 2 1 (by norm_num) (by norm_num)
      (by norm_num)).1⟩

theorem createWavBuffer_drop44 (pcmData : List Nat) :
    (createWavBuffer pcmData).drop 44 = pcmData := by
  rw [createWavBuffer_eq]
  rfl

/-- The `AudioPlayer` instance state: its accumulated raw audio chunks,
in arrival order. -/
structure PlayerState where
  rawAudioChunks : List (List Nat)
  deriving DecidableEq

/-- `audioPlayer.queueChunk(arrayBuffer)`: push the chunk onto
`rawAudioChunks`. -/
def queueChunk (p : PlayerState) (arrayBuffer : List Nat) : PlayerState :=
  { p with rawAudioChunks := p.rawAudioChunks ++ [arrayBuffer] }

/-- `AudioPlayer.play()`, with the platform decoder's outcome supplied as
the oracle `decodeOk` (the decoder is external to this model). Returns
the updated player state, the WAV buffer handed to `decodeAudioData`
(`none` when no chunks were buffered and playback is skipped), and
whether the decode-failure catch handler ran. The `combined` buffer is
the in-order concatenation the copy loop produces; on a successful
decode the chunk list is cleared after playback starts, while the catch
path leaves the chunk list untouched. -/
def play (p : PlayerState) (decodeOk : Bool) :
    PlayerState × Option (List Nat) × Bool :=
  if p.rawAudioChunks.length = 0 then (p, none, false)
  else
    let combined := p.rawAudioChunks.foldl (fun acc chunk => acc ++ chunk) []
    let wavBuffer := createWavBuffer combined
    if decodeOk then ({ p with rawAudioChunks := [] }, some wavBuffer, false)
    else (p, some wavBuffer, true)

/-- The client-visible session state the message handlers touch:
recording flag, the audio player, the status line (text and error
styling), and the chat transcript as (role, text) entries. -/
structure ClientState where
  isRecording : Bool
  player : PlayerState
  status : String
  statusIsError : Bool
  transcript : List (String × String)
  deriving DecidableEq

/-- `updateStatus(message, isError)`. -/
def updateStatus (st : ClientState) (message : String) (isError : Bool) : ClientState :=
  { st with status := message, statusIsError := isError }

/-- `addMessageToHistory(text, role)`: append a transcript entry. -/
def addMessageToHistory (st : ClientState) (text role : String) : ClientState :=
  { st with transcript := st.transcript ++ [(role, text)] }

/-- Replace the first assistant entry of a reversed transcript. -/
def replaceFirstAssistant : List (String × String) → String → List (String × String)
  | [], _ => []
  | e :: rest, text =>
    if e.1 = "assistant" then ("assistant", text) :: rest
    else e :: replaceFirstAssistant rest text

/-- `updateAssistantMessage(text)`: overwrite the text of the last
assistant transcript entry, if any. -/
def updateAssistantMessage (st : ClientState) (text : String) : ClientState :=
  { st with transcript := (replaceFirstAssistant st.transcript.reverse text).reverse }

/-- `handleAudioStreamStart()`: set the receiving status and append the
placeholder assistant transcript entry. -/
def handleAudioStreamStart (st : ClientState) : ClientState :=
  addMessageToHistory (updateStatus st "Receiving audio stream..." false) "..." "assistant"

/-- `handleAudioChunk(chunkData)`: a missing or empty `audio_data` field
is falsy and the handler returns without touching the player; otherwise
the decoded bytes are queued. The base64 transport decode is abstracted:
the payload carries the already-decoded bytes, with `none` standing for
an absent or empty `audio_data` field. -/
def handleAudioChunk (st : ClientState) (audio_data : Option (List Nat)) : ClientState :=
  match audio_data with
  | none => st
  | some bytes => { st with player := queueChunk st.player bytes }

/-- `handleAudioStreamEnd()`: set the playing status, then run
`audioPlayer.play()`; a decode failure surfaces the non-fatal error
status. Returns the new state and the buffer handed to the decoder. -/
def handleAudioStreamEnd (st : ClientState) (decodeOk : Bool) :
    ClientState × Option (List Nat) :=
  let st1 := updateStatus st "Audio stream complete. Playing..." false
  let r := play st1.player decodeOk
  let st2 := { st1 with player := r.1 }
  (if r.2.2 then updateStatus st2 "Error playing back audio" true else st2, r.2.1)

/-- `stopStreaming()`: early-returns when not recording; otherwise clears
the recording flag and tears down capture. The capture-node and
visualizer teardown have no footprint in this state model, and the
deferred idle status reset runs on a timer outside the handler. -/
def stopStreaming (st : ClientState) : ClientState :=
  if st.isRecording = false then st
  else { st with isRecording := false }

/-- The inbound message union dispatched by `websocket.onmessage`. -/
inductive InboundMessage where
  | error (message : String)
  | transcription (text : String)
  | audioStreamStart
  | audioChunk (audio_data : Option (List Nat))
  | audioStreamEnd
  | llmResponseText (text : String)
  | unknown
  deriving DecidableEq

/-- `websocket.onmessage` dispatch over a parsed message, with the decode
outcome for any playback this message triggers passed as an oracle.
Returns the new state and the WAV buffer handed to the decoder, if this
message triggered playback. -/
def handleMessage (st : ClientState) (msg : InboundMessage) (decodeOk : Bool) :
    ClientState × Option (List Nat) :=
  match msg with
  | .error m => (stopStreaming (updateStatus st ("Server Error: " ++ m) true), none)
  | .transcription t =>
    (if t.trim ≠ "" then addMessageToHistory st t "user" else st, none)
  | .audioStreamStart => (handleAudioStreamStart st, none)
  | .audioChunk payload => (handleAudioChunk st payload, none)
  | .audioStreamEnd => handleAudioStreamEnd st decodeOk
  | .llmResponseText t => (updateAssistantMessage st t, none)
  | .unknown => (st, none)

/-- Process a list of inbound messages in order, collecting every buffer
handed to the decoder, with one decode oracle for all playbacks. -/
def processMessages (st : ClientState) (decodeOk : Bool) :
    List InboundMessage → ClientState × List (List Nat)
  | [] => (st, [])
  | m :: ms =>
    let r := handleMessage st m decodeOk
    let rest := processMessages r.1 decodeOk ms
    (rest.1, r.2.toList ++ rest.2)

/-- The `WebSocket.OPEN` ready-state constant. -/
def wsOPEN : Nat := 1

/-- `scriptNode.onaudioprocess`: returns the binary PCM16 frame sent on
the socket, or `none` when the recording/ready-state guard makes the
callback a no-op. -/
def onaudioprocess (isRecording : Bool) (readyState : Nat)
    (inputBuffer : List ℚ) (sampleRate : ℚ) : Option (List ℤ) :=
  if isRecording = false ∨ readyState ≠ wsOPEN then none
  else some (convertTo16BitPCM (resampleBuffer inputBuffer sampleRate 16000))

/-- C1: reassembly concatenation. Starting from an empty Utterance
Buffer, receiving audio_stream_start, then chunks C1, C2, C3, then
audio_stream_end (with the platform decode succeeding) hands the decoder
exactly one buffer whose PCM data section is C1‖C2‖C3 in arrival order
and leaves the buffer empty immediately after; a chunk with no payload
is a no-op; and when no chunks arrived between start and end, nothing is
handed to the decoder and no error status is raised. -/
theorem reassembly_concatenation (rec err : Bool) (status : String)
    (transcript : List (String × String)) (c1 c2 c3 : List Nat) :
    ((processMessages ⟨rec, ⟨[]⟩, status, err, transcript⟩ true
        [.audioStreamStart, .audioChunk (some c1), .audioChunk (some c2),
         .audioChunk (some c3), .audioStreamEnd]).2.map (fun b => b.drop 44) =
      [c1 ++ c2 ++ c3] ∧
     (processMessages ⟨rec, ⟨[]⟩, status, err, transcript⟩ true
        [.audioStreamStart, .audioChunk (some c1), .audioChunk (some c2),
         .audioChunk (some c3), .audioStreamEnd]).1.player.rawAudioChunks = []) ∧
    (∀ st : ClientState, ∀ dec : Bool,
      handleMessage st (.audioChunk none) dec = (st, none)) ∧
    ((processMessages ⟨rec, ⟨[]⟩, status, err, transcript⟩ true
        [.audioStreamStart, .audioStreamEnd]).2 = [] ∧
     (processMessages ⟨rec, ⟨[]⟩, status, err, transcript⟩ true
        [.audioStreamStart, .audioStreamEnd]).1.statusIsError = false) := by
  refine ⟨⟨?_, ?_⟩, fun st dec => rfl, ?_, ?_⟩ <;>
    simp [processMessages, handleMessage, handleAudioStreamStart, handleAudioChunk,
      handleAudioStreamEnd, updateStatus, addMessageToHistory, queueChunk, play,
      stopStreaming, createWavBuffer_drop44, List.append_assoc]

/-- C5 counterexample: with one buffered chunk and a failing decode, the
Utterance Buffer is not empty after audio_stream_end, contradicting the
claim that it is cleared whether or not decoding succeeds. -/
theorem buffer_not_cleared_on_decode_failure :
    (handleMessage ⟨false, ⟨[[1]]⟩, "", false, []⟩ .audioStreamEnd
      false).1.player.rawAudioChunks ≠ [] := by
  simp [handleMessage, handleAudioStreamEnd, play, updateStatus]

/-- C5 amended: audio_stream_end clears the Utterance Buffer exactly
when the decode succeeds (the clear runs after the awaited decode, inside
the try block); after a decode failure the buffer retains its
contents. -/
theorem buffer_cleared_iff_decode_ok (st : ClientState) (dec : Bool) :
    (handleMessage st .audioStreamEnd dec).1.player.rawAudioChunks =
      if dec = true then [] else st.player.rawAudioChunks := by
  by_cases hb : st.player.rawAudioChunks.length = 0
  · have hnil : st.player.rawAudioChunks = [] := List.length_eq_zero.mp hb
    cases dec <;>
      simp [handleMessage, handleAudioStreamEnd, play, hb, hnil, updateStatus]
  · cases dec <;>
      simp [handleMessage, handleAudioStreamEnd, play, hb, updateStatus]

/-- C6 counterexample: audio_stream_start does not allocate a fresh
empty Utterance Buffer — a leftover chunk from a previous utterance
survives it, contradicting the claim that leftovers are discarded. -/
theorem stream_start_keeps_leftover_bytes :
    (handleMessage ⟨false, ⟨[[7]]⟩, "", false, []⟩ .audioStreamStart
      true).1.player.rawAudioChunks ≠ [] := by
  simp [handleMessage, handleAudioStreamStart, updateStatus, addMessageToHistory]

/-- C6 amended: audio_stream_start emits the placeholder assistant
transcript entry (and the receiving status) but leaves the Utterance
Buffer untouched, so the utterance assembled afterwards starts from
whatever the buffer already holds (empty in the normal flow, where the
previous successful playback cleared it). -/
theorem stream_start_leaves_buffer_untouched (st : ClientState) (dec : Bool) :
    (handleMessage st .audioStreamStart dec).1.player = st.player ∧
    (handleMessage st .audioStreamStart dec).1.transcript =
      st.transcript ++ [("assistant", "...")] ∧
    (handleMessage st .audioStreamStart dec).2 = none :=
  ⟨rfl, rfl, rfl⟩

/-- C7: guarded send path. The capture callback sends nothing when
recording has been stopped or the socket is not OPEN, and conversely an
outbound frame is only produced when recording is active and the socket
is OPEN. -/
theorem guarded_send_path (isRec : Bool) (readyState : Nat)
    (inputBuffer : List ℚ) (sampleRate : ℚ) :
    ((isRec = false ∨ readyState ≠ wsOPEN) →
      onaudioprocess isRec readyState inputBuffer sampleRate = none) ∧
    (onaudioprocess isRec readyState inputBuffer sampleRate ≠ none →
      isRec = true ∧ readyState = wsOPEN) := by
  constructor
  · intro h
    rw [onaudioprocess, if_pos h]
  · intro h
    by_cases h1 : isRec = false ∨ readyState ≠ wsOPEN
    · rw [onaudioprocess, if_pos h1] at h
      exact absurd rfl h
    · push_neg at h1
      exact ⟨by simpa using h1.1, h1.2⟩

/-- C8: remote-reported error handling. While recording, an inbound
error message stops the recording via the stop sequence and surfaces the
remote message verbatim in the error status line (prefixed with the
fixed "Server Error: " label), without touching the player. -/
theorem remote_error_forces_stop (st : ClientState) (m : String) (dec : Bool)
    (hrec : st.isRecording = true) :
    (handleMessage st (.error m) dec).1.isRecording = false ∧
    (handleMessage st (.error m) dec).1.status = "Server Error: " ++ m ∧
    (handleMessage st (.error m) dec).1.statusIsError = true ∧
    (handleMessage st (.error m) dec).2 = none := by
  simp [handleMessage, stopStreaming, updateStatus, hrec]

/-- Witness for the remote-error theorem at a concrete recording state
and message. -/
theorem remote_error_forces_stop_witness :
    (⟨true, ⟨[]⟩, "", false, []⟩ : ClientState).isRecording = true ∧
    (handleMessage ⟨true, ⟨[]⟩, "", false, []⟩ (.error "boom")
      true).1.isRecording = false ∧
    (handleMessage ⟨true, ⟨[]⟩, "", false, []⟩ (.error "boom")
      true).1.status = "Server Error: " ++ "boom" :=
  ⟨rfl, (remote_error_forces_stop ⟨true, ⟨[]⟩, "", false, []⟩ "boom" true rfl).1,
    (remote_error_forces_stop ⟨true, ⟨[]⟩, "", false, []⟩ "boom" true rfl).2.1⟩

/-- C10: unconditional chunk buffering. A chunk message with a payload
is appended to the player buffer regardless of the rest of the client
state (the handler tracks no streaming state) and hands nothing to the
decoder; an orphan chunk received before any stream start stays buffered
and its bytes sit at the front of the next playback's PCM data. -/
theorem unconditional_chunk_buffering (st : ClientState) (c : List Nat)
    (dec rec err : Bool) (status : String)
    (transcript : List (String × String)) (c0 c1 : List Nat) :
    handleMessage st (.audioChunk (some c)) dec =
      ({ st with player := ⟨st.player.rawAudioChunks ++ [c]⟩ }, none) ∧
    (processMessages ⟨rec, ⟨[]⟩, status, err, transcript⟩ true
        [.audioChunk (some c0), .audioStreamStart, .audioChunk (some c1),
         .audioStreamEnd]).2.map (fun b => b.drop 44) = [c0 ++ c1] := by
  constructor
  · rfl
  · simp [processMessages, handleMessage, handleAudioStreamStart, handleAudioChunk,
      handleAudioStreamEnd, updateStatus, addMessageToHistory, queueChunk, play,
      stopStreaming, createWavBuffer_drop44]
